import Mathlib

/-!
Verification development for the kalshi-autopilot decision and risk engine.

Python floats are modelled as exact rationals, datetimes are abstracted to
the quantities the code derives from them (days or hours until a market
closes, passed as explicit parameters; wall-clock timestamps that are only
stored, never compared, are abstracted to presence flags), and Python dicts
keyed by date strings become association lists.  Each definition is a direct
translation of the correspondingly named Python function; doc comments name
the source location.
-/

/-- Side of a position, from models/position.py PositionSide. -/
inductive PositionSide
  | YES
  | NO
deriving DecidableEq, Repr

/-- Status of a position, from models/position.py PositionStatus.
STOPPED is declared in the source with the comment "Hit stop loss". -/
inductive PositionStatus
  | OPEN
  | CLOSED
  | STOPPED
deriving DecidableEq, Repr

/-- Trading position, from models/position.py Position.  The datetime field
closed_at is abstracted to an Option Unit presence flag (the source only ever
assigns it, never reads it); opened_at is dropped for the same reason. -/
structure Position where
  id : String
  market_id : String
  side : PositionSide
  shares : ℚ
  entry_price : ℚ
  current_price : Option ℚ := none
  capital_allocated : ℚ
  stop_loss : Option ℚ := none
  take_profit : Option ℚ := none
  status : PositionStatus := PositionStatus.OPEN
  closed_at : Option Unit := none
  realized_pnl : ℚ := 0
deriving DecidableEq, Repr

/-- models/position.py Position.unrealized_pnl. -/
def Position.unrealized_pnl (p : Position) : ℚ :=
  match p.current_price with
  | none => 0
  | some cp => if p.status = PositionStatus.OPEN then (cp - p.entry_price) * p.shares else 0

/-- models/position.py Position.check_stop_loss. -/
def Position.check_stop_loss (p : Position) : Bool :=
  match p.stop_loss, p.current_price with
  | some sl, some cp =>
      match p.side with
      | PositionSide.YES => cp ≤ sl
      | PositionSide.NO => sl ≤ cp
  | _, _ => false

/-- models/position.py Position.check_take_profit. -/
def Position.check_take_profit (p : Position) : Bool :=
  match p.take_profit, p.current_price with
  | some tp, some cp =>
      match p.side with
      | PositionSide.YES => tp ≤ cp
      | PositionSide.NO => cp ≤ tp
  | _, _ => false

/-- models/position.py Position.close: records the exit price, sets
realized_pnl, unconditionally assigns status CLOSED and stamps closed_at.
The source returns the realized P&L; here it is read back off the record. -/
def Position.close (p : Position) (exit_price : ℚ) : Position :=
  { p with
      current_price := some exit_price
      realized_pnl := (exit_price - p.entry_price) * p.shares
      status := PositionStatus.CLOSED
      closed_at := some () }

/-- Lookup in a string-keyed dict with default 0, modelling dict.get(k, 0.0). -/
def dictGet (l : List (String × ℚ)) (k : String) : ℚ :=
  match l.find? (fun kv => decide (kv.1 = k)) with
  | some kv => kv.2
  | none => 0

/-- Overwriting insert into a string-keyed dict, modelling d[k] = v. -/
def dictSet (l : List (String × ℚ)) (k : String) (v : ℚ) : List (String × ℚ) :=
  if l.any (fun kv => decide (kv.1 = k)) then
    l.map (fun kv => if kv.1 = k then (k, v) else kv)
  else l ++ [(k, v)]

/-- Trading portfolio, from models/portfolio.py Portfolio (renamed Ledger
here).  The daily_pnl dict (date string to P&L snapshot) is an association
list; created_at and last_updated timestamps are dropped (assigned, never
read by any logic under verification). -/
structure Ledger where
  initial_capital : ℚ
  current_capital : ℚ
  positions : List Position := []
  daily_pnl : List (String × ℚ) := []
deriving DecidableEq, Repr

/-- models/portfolio.py Portfolio.open_positions. -/
def Ledger.open_positions (p : Ledger) : List Position :=
  p.positions.filter (fun q => decide (q.status = PositionStatus.OPEN))

/-- models/portfolio.py Portfolio.closed_positions. -/
def Ledger.closed_positions (p : Ledger) : List Position :=
  p.positions.filter (fun q => decide (¬ q.status = PositionStatus.OPEN))

/-- models/portfolio.py Portfolio.total_allocated. -/
def Ledger.total_allocated (p : Ledger) : ℚ :=
  (p.open_positions.map Position.capital_allocated).sum

/-- models/portfolio.py Portfolio.available_capital. -/
def Ledger.available_capital (p : Ledger) : ℚ :=
  p.current_capital - p.total_allocated

/-- models/portfolio.py Portfolio.total_unrealized_pnl. -/
def Ledger.total_unrealized_pnl (p : Ledger) : ℚ :=
  (p.open_positions.map Position.unrealized_pnl).sum

/-- models/portfolio.py Portfolio.total_realized_pnl. -/
def Ledger.total_realized_pnl (p : Ledger) : ℚ :=
  (p.closed_positions.map Position.realized_pnl).sum

/-- models/portfolio.py Portfolio.total_pnl. -/
def Ledger.total_pnl (p : Ledger) : ℚ :=
  p.total_realized_pnl + p.total_unrealized_pnl

/-- models/portfolio.py Portfolio.equity. -/
def Ledger.equity (p : Ledger) : ℚ :=
  p.current_capital + p.total_unrealized_pnl

/-- models/portfolio.py Portfolio.drawdown (a percentage). -/
def Ledger.drawdown (p : Ledger) : ℚ :=
  let peak := max p.initial_capital p.equity
  if peak = 0 then 0 else (peak - p.equity) / peak * 100

/-- models/portfolio.py Portfolio.get_today_pnl; the current date string is an
explicit parameter (the source reads the system clock). -/
def Ledger.get_today_pnl (p : Ledger) (today : String) : ℚ :=
  dictGet p.daily_pnl today

/-- models/portfolio.py Portfolio.update_daily_pnl. -/
def Ledger.update_daily_pnl (p : Ledger) (today : String) : Ledger :=
  { p with daily_pnl := dictSet p.daily_pnl today p.total_pnl }

/-- Configuration values from config.py Settings that the engine reads.
The source field hedge_ratio is rendered hedge_frac. -/
structure Settings where
  max_position_size : ℚ
  max_concurrent_positions : ℕ
  min_edge_threshold : ℚ
  min_confidence : ℚ
  hedge_min_confidence : ℚ
  hedge_frac : ℚ
  max_hedge_amount : ℚ
  max_daily_loss : ℚ
  kill_switch_drawdown : ℚ
  stop_loss_pct : ℚ
  take_profit_pct : ℚ
deriving DecidableEq, Repr

/-- The default values declared in config.py. -/
def defaultSettings : Settings :=
  { max_position_size := (15/100 : ℚ)
    max_concurrent_positions := 3
    min_edge_threshold := (10/100 : ℚ)
    min_confidence := (70/100 : ℚ)
    hedge_min_confidence := (60/100 : ℚ)
    hedge_frac := (25/100 : ℚ)
    max_hedge_amount := 50
    max_daily_loss := (10/100 : ℚ)
    kill_switch_drawdown := (20/100 : ℚ)
    stop_loss_pct := (20/100 : ℚ)
    take_profit_pct := 1 }

/-- models/portfolio.py Portfolio.can_open_position. -/
def Ledger.can_open_position (s : Settings) (p : Ledger) (today : String)
    (capital_required : ℚ) : Bool :=
  if p.available_capital < capital_required then false
  else if s.max_concurrent_positions ≤ p.open_positions.length then false
  else if p.get_today_pnl today < -(p.initial_capital * s.max_daily_loss) then false
  else if s.kill_switch_drawdown * 100 ≤ p.drawdown then false
  else true

/-- models/portfolio.py Portfolio.add_position. -/
def Ledger.add_position (p : Ledger) (q : Position) : Ledger :=
  { p with positions := p.positions ++ [q] }

/-- The position-list traversal inside Portfolio.close_position: close the
first position matching the id with status OPEN, returning the updated list
and the matched position as it was before closing (none if no match). -/
def closeFirstOpen : List Position → String → ℚ → List Position × Option Position
  | [], _, _ => ([], none)
  | q :: rest, pid, price =>
      if q.id = pid ∧ q.status = PositionStatus.OPEN then
        (q.close price :: rest, some q)
      else
        let r := closeFirstOpen rest pid price
        (q :: r.1, r.2)

/-- models/portfolio.py Portfolio.close_position: close the matching OPEN
position, credit current_capital with capital_allocated plus the realized
P&L, refresh the daily P&L snapshot, and return the realized P&L; if no
match, return none and leave the portfolio untouched. -/
def Ledger.close_position (p : Ledger) (pid : String) (exit_price : ℚ)
    (today : String) : Ledger × Option ℚ :=
  match closeFirstOpen p.positions pid exit_price with
  | (_, none) => (p, none)
  | (l, some q) =>
      let pnl := (exit_price - q.entry_price) * q.shares
      let p1 : Ledger :=
        { p with
            positions := l
            current_capital := p.current_capital + q.capital_allocated + pnl }
      (p1.update_daily_pnl today, some pnl)

/-- models/portfolio.py Portfolio.update_position_prices: refresh
current_price on every open position whose market has a quote, then refresh
the daily P&L snapshot. -/
def Ledger.update_position_prices (p : Ledger) (market_prices : List (String × ℚ))
    (today : String) : Ledger :=
  let p1 : Ledger :=
    { p with
        positions := p.positions.map (fun q =>
          if q.status = PositionStatus.OPEN then
            match market_prices.find? (fun kv => decide (kv.1 = q.market_id)) with
            | some kv => { q with current_price := some kv.2 }
            | none => q
          else q) }
  p1.update_daily_pnl today

/-- One market outcome, from models/event.py Outcome. -/
structure Outcome where
  id : String
  title : String
  price : ℚ
deriving DecidableEq, Repr

/-- Market snapshot, from models/event.py Market.  The end_date datetime is
abstracted to hoursToEnd, the number of hours from the current instant to
end_date (none when end_date is None); every use of end_date in the engine
reduces to this quantity. -/
structure Market where
  id : String
  question : String
  outcomes : List Outcome := []
  volume : ℚ := 0
  liquidity : ℚ := 0
  hoursToEnd : Option ℚ := none
deriving DecidableEq, Repr

def sYes : String := "yes"

def sTrue : String := "true"

def sNo : String := "no"

def sFalse : String := "false"

/-- models/event.py Market.is_binary. -/
def Market.is_binary (m : Market) : Bool :=
  m.outcomes.length = 2

/-- models/event.py Market.yes_price: for binary markets, the price of the
first outcome titled yes or true (case-insensitively); none otherwise. -/
def Market.yes_price (m : Market) : Option ℚ :=
  if m.outcomes.length = 2 then
    (m.outcomes.find? (fun o => decide (o.title.toLower = sYes ∨ o.title.toLower = sTrue))).map Outcome.price
  else none

/-- models/event.py Market.no_price. -/
def Market.no_price (m : Market) : Option ℚ :=
  if m.outcomes.length = 2 then
    (m.outcomes.find? (fun o => decide (o.title.toLower = sNo ∨ o.title.toLower = sFalse))).map Outcome.price
  else none

/-- The days-until-close quantity (end_date minus now).days used by the
filter; Python timedelta.days floors toward minus infinity, hence Int.floor
of the hour count divided by 24. -/
def Market.daysToEnd (m : Market) : Option ℤ :=
  m.hoursToEnd.map (fun h => Int.floor (h / 24))

/-- The Python idiom (x or 0.5) on an optional price: None and 0.0 are both
falsy, so a missing or zero price is replaced by 0.5. -/
def orHalf (yp : Option ℚ) : ℚ :=
  match yp with
  | none => 1/2
  | some x => if x = 0 then 1/2 else x

/-- Filter thresholds, from strategy/market_filters.py MarketFilter.__init__,
with its declared defaults. -/
structure MarketFilter where
  min_liquidity : ℚ := 5000
  min_volume : ℚ := 10000
  min_days_to_close : ℤ := 2
  max_price : ℚ := (85/100 : ℚ)
  min_price : ℚ := (15/100 : ℚ)
  max_spread : ℚ := (5/100 : ℚ)
deriving DecidableEq, Repr

/-- Rejection reasons of strategy/market_filters.py _check_market, rendered
as a closed enumeration of the reason strings the source returns. -/
inductive RejectReason
  | liquidity
  | volume
  | time
  | price_extreme
  | passed
deriving DecidableEq, Repr

/-- The price-extremity tail of strategy/market_filters.py _check_market:
the price checked is (market.yes_price or 0.5); the subsequent spread check
is absent in the source (commented out). -/
def MarketFilter.price_check (f : MarketFilter) (m : Market) : Bool × RejectReason :=
  if f.max_price < orHalf m.yes_price ∨ orHalf m.yes_price < f.min_price then
    (false, RejectReason.price_extreme)
  else (true, RejectReason.passed)

/-- strategy/market_filters.py MarketFilter._check_market, continued: the
checks run in the order liquidity, volume, time-to-close (only when an end
date exists), price extremity, first failing reason wins; price_check above
is the shared fall-through tail. -/
def MarketFilter.check_market (f : MarketFilter) (m : Market) : Bool × RejectReason :=
  if m.liquidity < f.min_liquidity then (false, RejectReason.liquidity)
  else if m.volume < f.min_volume then (false, RejectReason.volume)
  else
    match m.daysToEnd with
    | some d => if d < f.min_days_to_close then (false, RejectReason.time) else f.price_check m
    | none => f.price_check m

/-- strategy/market_filters.py MarketFilter.filter_markets: keep the markets
passing check_market, in order (the stats dict is logging only). -/
def MarketFilter.filter_markets (f : MarketFilter) (markets : List Market) : List Market :=
  markets.filter (fun m => (f.check_market m).1)

/-- The filter configuration constructed in agents/research_agent.py
(matching the MarketFilter defaults). -/
def researchFilter : MarketFilter := {}

/-- Analyzed event, from models/event.py Event (analysis fields only; the
news text fields are not read by any verified logic). -/
structure Event where
  market : Market
  research_probability : Option ℚ := none
  confidence : Option ℚ := none
  edge : Option ℚ := none
deriving DecidableEq, Repr

/-- models/event.py Event.calculate_edge. -/
def Event.calculate_edge (e : Event) : Option ℚ :=
  match e.research_probability, e.market.yes_price with
  | some rp, some yp => some |rp - yp|
  | _, _ => none

/-- The value (self.edge or 0) after Event.has_edge lazily fills a missing
edge via calculate_edge; a still-missing edge reads as 0 (and 0.0 is its own
falsy replacement, so getD 0 is exact). -/
def Event.effective_edge (e : Event) : ℚ :=
  (match e.edge with
   | some x => some x
   | none => e.calculate_edge).getD 0

/-- models/event.py Event.has_edge. -/
def Event.has_edge (s : Settings) (e : Event) : Bool :=
  s.min_edge_threshold ≤ e.effective_edge

/-- models/event.py Event.is_confident, reading (self.confidence or 0). -/
def Event.is_confident (s : Settings) (e : Event) : Bool :=
  s.min_confidence ≤ e.confidence.getD 0

/-- agents/risk_manager.py RiskManager._should_trade: edge gate, confidence
gate, a hard 1000 liquidity floor, then the portfolio admission check on a
rough 10 percent of equity. -/
def should_trade (s : Settings) (e : Event) (p : Ledger) (today : String) : Bool :=
  if e.has_edge s = false then false
  else if e.is_confident s = false then false
  else if e.market.liquidity < 1000 then false
  else if Ledger.can_open_position s p today (p.equity * (10/100 : ℚ)) = false then false
  else true

/-- agents/risk_manager.py RiskManager._determine_side, applied to the
probability and market yes price it compares (YES when the research
probability strictly exceeds the market yes price). -/
def determine_side (research_probability yes_price : ℚ) : PositionSide :=
  if yes_price < research_probability then PositionSide.YES else PositionSide.NO

/-- agents/risk_manager.py RiskManager._calculate_kelly, applied to the
win probability p and market price already selected for the chosen side
(p = research probability and price = yes price for YES; their complements
for NO). -/
def calculate_kelly (p market_price : ℚ) : ℚ :=
  if 1 ≤ market_price ∨ market_price ≤ 0 then 0
  else
    let b := (1 - market_price) / market_price
    let q := 1 - p
    max 0 ((b * p - q) / b)

/-- agents/risk_manager.py RiskManager._apply_limits: half-Kelly, cap at
max_position_size, zero below the 2 percent floor. -/
def apply_limits (s : Settings) (kelly_fraction : ℚ) : ℚ :=
  let fraction := kelly_fraction * (5/10 : ℚ)
  let fraction := min fraction s.max_position_size
  if fraction < (2/100 : ℚ) then 0 else fraction

/-- Hedging configuration, from strategy/hedging.py HedgingManager.__init__
with its declared defaults; the source fields min_confidence_for_hedging and
default_ratio are rendered min_confidence and default_frac. -/
structure HedgingManager where
  min_confidence : ℚ := (60/100 : ℚ)
  default_frac : ℚ := (25/100 : ℚ)
  max_hedge : ℚ := 50
deriving DecidableEq, Repr

/-- strategy/hedging.py HedgingManager.should_hedge. -/
def HedgingManager.should_hedge (h : HedgingManager) (confidence position_size : ℚ) : Bool :=
  if h.min_confidence ≤ confidence then false
  else if position_size < 10 then false
  else true

/-- Result of calculate_hedge (the reasoning string, being display only, is
omitted); the source dict key hedge_ratio is rendered hedge_frac. -/
structure HedgeResult where
  should_hedge : Bool
  hedge_size : ℚ
  hedge_frac : ℚ
deriving DecidableEq, Repr

/-- The Python idiom (custom_ratio if custom_ratio else default): a missing
or zero custom value falls back to the default. -/
def pyOrDefault (custom : Option ℚ) (dflt : ℚ) : ℚ :=
  match custom with
  | some c => if c = 0 then dflt else c
  | none => dflt

/-- strategy/hedging.py HedgingManager.calculate_hedge. -/
def HedgingManager.calculate_hedge (h : HedgingManager) (position_size confidence : ℚ)
    (custom_frac : Option ℚ) : HedgeResult :=
  if h.should_hedge confidence position_size = false then
    { should_hedge := false, hedge_size := 0, hedge_frac := 0 }
  else
    let frac := pyOrDefault custom_frac h.default_frac
    let hedge_size := position_size * frac
    if h.max_hedge < hedge_size then
      { should_hedge := true, hedge_size := h.max_hedge, hedge_frac := h.max_hedge / position_size }
    else
      { should_hedge := true, hedge_size := hedge_size, hedge_frac := frac }

/-- The context dict built by strategy/pattern_strategy.py _build_context.
It contains at most the keys breaking_news, news_age_hours and
hours_to_resolution; analyze_all_patterns is invoked from analyze_market
only (its sole caller in the repository), so detector branches keyed on
fields never present in this dict (price_history, volume_history,
volume_spike, low_price_change, similar_markets, historical_outcomes,
kalshi_price, correlated_markets, time_series_markets,
social_sentiment_spike, expert_mentions) are statically dead and are
embedded as their key-missing branches below. -/
structure Context where
  breaking_news : Bool := false
  news_age_hours : Option ℚ := none
  hours_to_resolution : Option ℚ := none
deriving DecidableEq, Repr

/-- strategy/pattern_strategy.py _build_context: news presence sets
breaking_news with an assumed age of one hour; hours_to_resolution is the
time to end_date when present. -/
def buildContext (m : Market) (news : Bool) : Context :=
  { breaking_news := news
    news_age_hours := if news then some 1 else none
    hours_to_resolution := m.hoursToEnd }

/-- The score accumulated by strategy/advanced_patterns.py
MispricingDetector.detect under the built context: only its first pattern
(liquidity below 10000 with an extreme price) can fire; the source reads
market.yes_price without a default there (a missing yes price raises in
Python when liquidity is below 10000 and is rendered getD 0 here; theorems
about the analysis assume the yes price is present). -/
def mispricingScore (m : Market) (_ctx : Context) : ℚ :=
  if m.liquidity < 10000 ∧ (m.yes_price.getD 0 < (20/100 : ℚ) ∨ (80/100 : ℚ) < m.yes_price.getD 0) then 30 else 0

/-- MomentumDetector.detect under the built context: price_history is never
a key, so the detector always takes its no-history early return with
score 0 (and no direction entry in the returned signal). -/
def momentumScore (_ctx : Context) : ℚ := 0

/-- ReversalDetector.detect under the built context: patterns 2 and 4 need
price_history and volume_history and are dead; the price examined is
(market.yes_price or 0.5). -/
def reversalScore (m : Market) (_ctx : Context) : ℚ :=
  (if (90/100 : ℚ) < orHalf m.yes_price ∨ orHalf m.yes_price < (10/100 : ℚ) then 25 else 0) +
  (if ((85/100 : ℚ) < orHalf m.yes_price ∨ orHalf m.yes_price < (15/100 : ℚ)) ∧ m.liquidity < 5000 then 20 else 0)

/-- ArbitrageDetector.detect under the built context: all three patterns
need keys never present (kalshi_price, correlated_markets,
time_series_markets), so the score is 0. -/
def arbitrageScore (_ctx : Context) : ℚ := 0

/-- EventDrivenDetector.detect under the built context: breaking news aged
under 2 hours scores 40 (under 12 hours 25; the age defaults to 24 when the
key is missing), and a resolution 1 to 48 hours away scores 30; the social
media and expert patterns read keys never present. -/
def eventDrivenScore (m : Market) (ctx : Context) : ℚ :=
  (if ctx.breaking_news then
     (if ctx.news_age_hours.getD 24 < 2 then 40
      else if ctx.news_age_hours.getD 24 < 12 then 25 else 0)
   else 0) +
  (match m.hoursToEnd with
   | some h => if 1 < h ∧ h < 48 then 30 else 0
   | none => 0)

/-- The min(score, 100) clamp every detector applies to its returned score. -/
def clampScore (x : ℚ) : ℚ := min x 100

/-- The confidence each detector reports: min(score / 100, 1), which equals
the clamped score divided by 100. -/
def signalConfidence (score : ℚ) : ℚ := min (score / 100) 1

/-- strategy/advanced_patterns.py _combine_signals: weighted sum of the
clamped detector scores, iterated in the weight-dict order mispricing 0.35,
arbitrage 0.25, momentum 0.20, event_driven 0.15, reversal 0.05. -/
def combine_signals (m : Market) (ctx : Context) : ℚ :=
  clampScore (mispricingScore m ctx) * (35/100 : ℚ) +
  clampScore (arbitrageScore ctx) * (25/100 : ℚ) +
  clampScore (momentumScore ctx) * (20/100 : ℚ) +
  clampScore (eventDrivenScore m ctx) * (15/100 : ℚ) +
  clampScore (reversalScore m ctx) * (5/100 : ℚ)

/-- The five detector names, in the insertion order of the signals dict of
analyze_all_patterns (mispricing, momentum, reversal, arbitrage,
event_driven). -/
inductive Pattern
  | mispricing
  | momentum
  | reversal
  | arbitrage
  | event_driven
deriving DecidableEq, Repr

/-- The top_pattern computation of analyze_all_patterns: Python max over the
signals dict keyed by confidence keeps the first maximal entry, so each
later detector replaces the running best only on a strictly greater
confidence. -/
def top_pattern (m : Market) (ctx : Context) : Pattern :=
  let best := (Pattern.mispricing, signalConfidence (mispricingScore m ctx))
  let cMom := signalConfidence (momentumScore ctx)
  let best := if best.2 < cMom then (Pattern.momentum, cMom) else best
  let cRev := signalConfidence (reversalScore m ctx)
  let best := if best.2 < cRev then (Pattern.reversal, cRev) else best
  let cArb := signalConfidence (arbitrageScore ctx)
  let best := if best.2 < cArb then (Pattern.arbitrage, cArb) else best
  let cEv := signalConfidence (eventDrivenScore m ctx)
  let best := if best.2 < cEv then (Pattern.event_driven, cEv) else best
  best.1

/-- The outputs of the external LLM calls made by _get_gemini_confirmations
(strategy/pattern_strategy.py), modelled as an opaque input: whether the
sentiment check returned POSITIVE (only consulted when news is present) and
the quick probability check with its 0.5 fallback already applied.  The
has_recent_news entry is set exactly when news is present, and the
already_resolved entry is computed but never read downstream. -/
structure GeminiConfirms where
  sentiment_positive : Bool
  llm_probability : ℚ
deriving DecidableEq, Repr

/-- strategy/pattern_strategy.py _pattern_score_to_probability, given the
top pattern, the effective market price (market.yes_price or 0.5) and the
LLM probability when the confirmation step ran.  Under the built context the
momentum signal carries no direction key (so the direction defaults to
neutral and the price is unchanged) and kalshi_price is never a
confirmation key; the final clamp line is split off below. -/
def pattern_probability_raw (top : Pattern) (market_price : ℚ)
    (llm_probability : Option ℚ) : ℚ :=
  match top with
  | Pattern.mispricing =>
      match llm_probability with
      | some lp => lp
      | none =>
          if (75/100 : ℚ) < market_price then market_price - (10/100 : ℚ)
          else if market_price < (25/100 : ℚ) then market_price + (10/100 : ℚ)
          else market_price
  | Pattern.momentum => market_price
  | Pattern.reversal =>
      if (75/100 : ℚ) < market_price then market_price - (15/100 : ℚ)
      else if market_price < (25/100 : ℚ) then market_price + (15/100 : ℚ)
      else market_price
  | Pattern.arbitrage => market_price
  | Pattern.event_driven =>
      match llm_probability with
      | some lp => (lp + market_price) / 2
      | none => market_price

/-- The final sanity-check line of _pattern_score_to_probability: clamp the
adjusted probability to the range 0.05 to 0.95. -/
def pattern_score_to_probability (top : Pattern) (market_price : ℚ)
    (llm_probability : Option ℚ) : ℚ :=
  max (5/100 : ℚ) (min (95/100 : ℚ) (pattern_probability_raw top market_price llm_probability))

/-- The analysis dict produced by strategy/pattern_strategy.py
analyze_market (the fields the engine reads). -/
structure Analysis where
  probability : ℚ
  market_price : ℚ
  edge : ℚ
  confidence : ℚ
  combined_score : ℚ
  top_pattern : Pattern
  should_trade : Bool
deriving DecidableEq, Repr

/-- strategy/pattern_strategy.py analyze_market: build the context, run the
detectors and combine; when the combined score exceeds 40 consult the LLM
confirmations and boost the score by 10 for recent news plus 5 for POSITIVE
sentiment (both possible only when news was supplied); convert the top
pattern to a probability from the effective market price; report
edge = |probability - market_price| and confidence = combined_score / 100. -/
def boosted_score (m : Market) (news : Bool) (g : GeminiConfirms) : ℚ :=
  if 40 < combine_signals m (buildContext m news) then
    combine_signals m (buildContext m news)
      + (if news then 10 else 0)
      + (if news ∧ g.sentiment_positive then 5 else 0)
  else combine_signals m (buildContext m news)

/-- The LLM probability handed to the blender: present exactly when the
confirmation step ran (combined score above 40). -/
def llm_used (m : Market) (news : Bool) (g : GeminiConfirms) : Option ℚ :=
  if 40 < combine_signals m (buildContext m news) then some g.llm_probability else none

/-- strategy/pattern_strategy.py analyze_market, continued: convert the top
pattern to a probability from the effective market price
(market.yes_price or 0.5) and report edge = |probability - market_price|
and confidence = combined_score / 100, where combined_score carries the
news boosts of boosted_score. -/
def analyze_market (m : Market) (news : Bool) (g : GeminiConfirms) : Analysis :=
  let market_price := orHalf m.yes_price
  let top := top_pattern m (buildContext m news)
  let probability := pattern_score_to_probability top market_price (llm_used m news g)
  { probability := probability
    market_price := market_price
    edge := |probability - market_price|
    confidence := boosted_score m news g / 100
    combined_score := boosted_score m news g
    top_pattern := top
    should_trade := decide ((10/100 : ℚ) < |probability - market_price| ∧ (60/100 : ℚ) < boosted_score m news g / 100) }

def day0 : String := "2026-10-12"

def pid1 : String := "pos-1"

def pid2 : String := "pos-2"

def mid1 : String := "mkt-1"

def qStr : String := "will it happen"

def oid1 : String := "out-1"

def oid2 : String := "out-2"

/-- A plain binary market at yes price 0.40, used by the risk-sizing
scenario. -/
def mKelly : Market :=
  { id := mid1
    question := qStr
    outcomes := [⟨oid1, sYes, (40/100 : ℚ)⟩, ⟨oid2, sNo, (60/100 : ℚ)⟩]
    volume := 50000
    liquidity := 5000 }

/-- The analyzed event of the risk-sizing scenario: probability 0.60,
confidence 0.75 against yes price 0.40. -/
def evKelly : Event :=
  { market := mKelly
    research_probability := some (6/10 : ℚ)
    confidence := some (75/100 : ℚ) }


/-- A ledger with more requested capital than available, for admission
control checks. -/
def ledPoor : Ledger := { initial_capital := 1000, current_capital := 100 }

/-- An open YES position whose stop loss (0.32) is breached by the current
price (0.30). -/
def posStop : Position :=
  { id := pid1
    market_id := mid1
    side := PositionSide.YES
    shares := 10
    entry_price := (40/100 : ℚ)
    current_price := some (30/100 : ℚ)
    capital_allocated := 4
    stop_loss := some (32/100 : ℚ)
    take_profit := some (80/100 : ℚ) }

/-- A hedging manager with the declared defaults. -/
def hedgeMgrDefault : HedgingManager := {}

/-- Unfolded form of calculate_hedge, for case reasoning. -/
lemma calculate_hedge_eq (h : HedgingManager) (position_size confidence : ℚ)
    (custom : Option ℚ) :
    h.calculate_hedge position_size confidence custom =
      if h.should_hedge confidence position_size = false then
        { should_hedge := false, hedge_size := 0, hedge_frac := 0 }
      else if h.max_hedge < position_size * pyOrDefault custom h.default_frac then
        { should_hedge := true, hedge_size := h.max_hedge,
          hedge_frac := h.max_hedge / position_size }
      else
        { should_hedge := true, hedge_size := position_size * pyOrDefault custom h.default_frac,
          hedge_frac := pyOrDefault custom h.default_frac } := rfl

/-- Claim C2: can_open_position returns false whenever the requested capital
exceeds available_capital, whenever the number of open positions reaches
max_concurrent_positions, whenever the recorded P&L for today is below minus
max_daily_loss times initial_capital, or whenever the drawdown percentage
reaches kill_switch_drawdown times 100. -/
theorem claim2_can_open_limits (s : Settings) (p : Ledger) (today : String)
    (capital_required : ℚ)
    (h : p.available_capital < capital_required ∨
         s.max_concurrent_positions ≤ p.open_positions.length ∨
         p.get_today_pnl today < -(p.initial_capital * s.max_daily_loss) ∨
         s.kill_switch_drawdown * 100 ≤ p.drawdown) :
    Ledger.can_open_position s p today capital_required = false := by
  unfold Ledger.can_open_position
  split_ifs with h1 h2 h3 h4
  any_goals rfl
  rcases h with h | h | h | h
  exacts [absurd h h1, absurd h h2, absurd h h3, absurd h h4]

/-- Witness for C2: a concrete ledger with 100 available cannot admit a 200
position. -/
theorem claim2_witness :
    ledPoor.available_capital < 200 ∧
    Ledger.can_open_position defaultSettings ledPoor day0 200 = false :=
  ⟨by with_unfolding_all decide,
   claim2_can_open_limits defaultSettings ledPoor day0 200
     (Or.inl (by with_unfolding_all decide))⟩

/-- Claim C3: the Kelly fraction is non-negative for every price in (0,1)
and probability in [0,1], and is exactly 0 whenever the price is outside
(0,1). -/
theorem claim3_kelly_nonneg :
    (∀ p price : ℚ, 0 < price → price < 1 → 0 ≤ p → p ≤ 1 →
        0 ≤ calculate_kelly p price) ∧
    (∀ p price : ℚ, price ≤ 0 ∨ 1 ≤ price → calculate_kelly p price = 0) := by
  constructor
  · intro p price h0 h1 _ _
    have hcond : ¬ (1 ≤ price ∨ price ≤ 0) := by
      push_neg
      exact ⟨h1, h0⟩
    unfold calculate_kelly
    rw [if_neg hcond]
    exact le_max_left 0 _
  · intro p price h
    unfold calculate_kelly
    rcases h with h | h
    · rw [if_pos (Or.inr h)]
    · rw [if_pos (Or.inl h)]

/-- Witness for C3 at p = 0.6 with price 0.4 (interior) and price 0
(degenerate). -/
theorem claim3_witness :
    (0 ≤ calculate_kelly (6/10 : ℚ) (4/10 : ℚ)) ∧ calculate_kelly (6/10 : ℚ) 0 = 0 :=
  ⟨claim3_kelly_nonneg.1 (6/10) (4/10) (by norm_num) (by norm_num) (by norm_num) (by norm_num),
   claim3_kelly_nonneg.2 (6/10) 0 (Or.inl le_rfl)⟩

/-- Claim C4: the applied position fraction is min(half Kelly,
max_position_size) when that value reaches the 2 percent floor and 0
otherwise; and in the documented scenario (yes price 0.40, probability 0.60,
confidence 0.75 against min_edge 0.10 and min_confidence 0.70) the trade
passes both gates with side YES, Kelly fraction 1/3 (displayed 0.3333) and
final position fraction 0.15. -/
theorem claim4_apply_limits :
    (∀ (s : Settings) (k : ℚ),
        apply_limits s k =
          if (2/100 : ℚ) ≤ min (k * (5/10 : ℚ)) s.max_position_size then
            min (k * (5/10 : ℚ)) s.max_position_size
          else 0) ∧
    evKelly.has_edge defaultSettings = true ∧
    evKelly.is_confident defaultSettings = true ∧
    determine_side (6/10 : ℚ) (4/10 : ℚ) = PositionSide.YES ∧
    calculate_kelly (6/10 : ℚ) (4/10 : ℚ) = 1/3 ∧
    apply_limits defaultSettings (calculate_kelly (6/10 : ℚ) (4/10 : ℚ)) = (15/100 : ℚ) := by
  refine ⟨?_, ?_, ?_, ?_, ?_, ?_⟩
  · intro s k
    show (if min (k * (5/10 : ℚ)) s.max_position_size < (2/100 : ℚ) then (0:ℚ)
          else min (k * (5/10 : ℚ)) s.max_position_size) = _
    by_cases h : min (k * (5/10 : ℚ)) s.max_position_size < (2/100 : ℚ)
    · rw [if_pos h, if_neg (not_le.mpr h)]
    · rw [if_neg h, if_pos (not_lt.mp h)]
  all_goals with_unfolding_all decide

/-- Claim C6 evaluation: on a position whose stop loss has triggered,
Position.close records the realized P&L and a close timestamp but assigns
status CLOSED, never STOPPED (the STOPPED state, documented in the source as
the stop-loss terminal state, is unreachable). -/
theorem claim6_stop_loss_still_closed :
    posStop.check_stop_loss = true ∧
    (posStop.close (30/100 : ℚ)).realized_pnl = ((30/100 : ℚ) - (40/100 : ℚ)) * 10 ∧
    (posStop.close (30/100 : ℚ)).closed_at = some () ∧
    (posStop.close (30/100 : ℚ)).status = PositionStatus.CLOSED ∧
    ¬ (posStop.close (30/100 : ℚ)).status = PositionStatus.STOPPED := by
  with_unfolding_all decide

/-- Claim C10: a hedge is produced exactly when confidence is below the
hedging threshold and the position is at least 10 dollars; the hedge size is
min(position_size times the effective hedge fraction, max_hedge); when the
cap binds, the reported fraction is recomputed as hedge_size over
position_size; and the documented scenario (confidence 0.50, position 100,
fraction 0.60, cap 50) yields size 50 with reported fraction 0.50. -/
theorem claim10_hedging (h : HedgingManager) (confidence position_size : ℚ)
    (custom : Option ℚ) :
    (h.should_hedge confidence position_size = true ↔
      confidence < h.min_confidence ∧ 10 ≤ position_size) ∧
    (h.should_hedge confidence position_size = true →
      (h.calculate_hedge position_size confidence custom).should_hedge = true ∧
      (h.calculate_hedge position_size confidence custom).hedge_size
        = min (position_size * pyOrDefault custom h.default_frac) h.max_hedge ∧
      (h.max_hedge < position_size * pyOrDefault custom h.default_frac →
        (h.calculate_hedge position_size confidence custom).hedge_frac
          = h.max_hedge / position_size)) ∧
    (h.should_hedge confidence position_size = false →
      (h.calculate_hedge position_size confidence custom).should_hedge = false ∧
      (h.calculate_hedge position_size confidence custom).hedge_size = 0) ∧
    ((hedgeMgrDefault.calculate_hedge 100 (5/10 : ℚ) (some (6/10 : ℚ))).should_hedge = true ∧
     (hedgeMgrDefault.calculate_hedge 100 (5/10 : ℚ) (some (6/10 : ℚ))).hedge_size = 50 ∧
     (hedgeMgrDefault.calculate_hedge 100 (5/10 : ℚ) (some (6/10 : ℚ))).hedge_frac = (5/10 : ℚ)) := by
  refine ⟨?_, ?_, ?_, by with_unfolding_all decide⟩
  · constructor
    · intro ht
      unfold HedgingManager.should_hedge at ht
      split_ifs at ht with h1 h2
      exact ⟨not_le.mp h1, not_lt.mp h2⟩
    · rintro ⟨hc, hs⟩
      unfold HedgingManager.should_hedge
      rw [if_neg (not_le.mpr hc), if_neg (not_lt.mpr hs)]
  · intro ht
    rw [calculate_hedge_eq]
    have hf : ¬ (h.should_hedge confidence position_size = false) := by
      rw [ht]
      simp
    rw [if_neg hf]
    by_cases hcap : h.max_hedge < position_size * pyOrDefault custom h.default_frac
    · rw [if_pos hcap]
      exact ⟨rfl, (min_eq_right (le_of_lt hcap)).symm, fun _ => rfl⟩
    · rw [if_neg hcap]
      exact ⟨rfl, (min_eq_left (not_lt.mp hcap)).symm, fun hc2 => absurd hc2 hcap⟩
  · intro hf
    rw [calculate_hedge_eq, if_pos hf]
    exact ⟨rfl, rfl⟩

/-- Witness for C10: the capped scenario instantiated through the theorem. -/
theorem claim10_witness :
    hedgeMgrDefault.should_hedge (5/10 : ℚ) 100 = true ∧
    hedgeMgrDefault.max_hedge < 100 * pyOrDefault (some (6/10 : ℚ)) hedgeMgrDefault.default_frac ∧
    (hedgeMgrDefault.calculate_hedge 100 (5/10 : ℚ) (some (6/10 : ℚ))).hedge_size
      = min (100 * pyOrDefault (some (6/10 : ℚ)) hedgeMgrDefault.default_frac)
          hedgeMgrDefault.max_hedge ∧
    (hedgeMgrDefault.calculate_hedge 100 (5/10 : ℚ) (some (6/10 : ℚ))).hedge_frac
      = hedgeMgrDefault.max_hedge / 100 :=
  ⟨by with_unfolding_all decide, by with_unfolding_all decide,
   ((claim10_hedging hedgeMgrDefault (5/10 : ℚ) 100 (some (6/10 : ℚ))).2.1
     (by with_unfolding_all decide)).2.1,
   ((claim10_hedging hedgeMgrDefault (5/10 : ℚ) 100 (some (6/10 : ℚ))).2.1
     (by with_unfolding_all decide)).2.2 (by with_unfolding_all decide)⟩

/-- A fresh ledger with 1000 capital and no positions. -/
def ledRich : Ledger := { initial_capital := 1000, current_capital := 1000 }

/-- A fully analyzed tradeable event (edge 0.20, confidence 0.75). -/
def evGood : Event :=
  { market := mKelly
    research_probability := some (6/10 : ℚ)
    confidence := some (75/100 : ℚ)
    edge := some (2/10 : ℚ) }

/-- An open position over mkt-1 (10 shares at 0.40, 4 dollars allocated). -/
def posOpen1 : Position :=
  { id := pid1
    market_id := mid1
    side := PositionSide.YES
    shares := 10
    entry_price := (40/100 : ℚ)
    capital_allocated := 4 }

/-- A ledger holding exactly the open position posOpen1. -/
def ledOne : Ledger :=
  { initial_capital := 1000
    current_capital := 1000
    positions := [posOpen1] }

/-- Claim C7: an analyzed event (edge and confidence recorded) passes
the risk-manager trade gate only when its edge reaches min_edge_threshold
and its confidence reaches min_confidence. -/
theorem claim7_trade_gates (s : Settings) (e : Event) (p : Ledger) (today : String)
    (ed c : ℚ) (hed : e.edge = some ed) (hc : e.confidence = some c)
    (h : should_trade s e p today = true) :
    s.min_edge_threshold ≤ ed ∧ s.min_confidence ≤ c := by
  unfold should_trade at h
  split_ifs at h with h1 h2 h3 h4
  constructor
  · have h1t : e.has_edge s = true := by
      cases hb : e.has_edge s
      · exact absurd hb h1
      · rfl
    have hle : s.min_edge_threshold ≤ e.effective_edge := by
      unfold Event.has_edge at h1t
      exact of_decide_eq_true h1t
    unfold Event.effective_edge at hle
    rw [hed] at hle
    simpa using hle
  · have h2t : e.is_confident s = true := by
      cases hb : e.is_confident s
      · exact absurd hb h2
      · rfl
    have hle : s.min_confidence ≤ e.confidence.getD 0 := by
      unfold Event.is_confident at h2t
      exact of_decide_eq_true h2t
    rw [hc] at hle
    simpa using hle

/-- Witness for C7: a concrete accepted event meets both gates. -/
theorem claim7_witness :
    should_trade defaultSettings evGood ledRich day0 = true ∧
    defaultSettings.min_edge_threshold ≤ (2/10 : ℚ) ∧
    defaultSettings.min_confidence ≤ (75/100 : ℚ) :=
  ⟨by with_unfolding_all decide,
   (claim7_trade_gates defaultSettings evGood ledRich day0 (2/10) (75/100) rfl rfl
     (by with_unfolding_all decide)).1,
   (claim7_trade_gates defaultSettings evGood ledRich day0 (2/10) (75/100) rfl rfl
     (by with_unfolding_all decide)).2⟩

/-- Claim C9: current_capital is untouched by add_position, by
update_position_prices and by the daily P&L refresh; close_position leaves
it unchanged when no open position matches and changes it by exactly
capital_allocated plus realized P&L when one does. -/
theorem claim9_capital_frame (p : Ledger) (q : Position) (prices : List (String × ℚ))
    (today pid : String) (price : ℚ) :
    (p.add_position q).current_capital = p.current_capital ∧
    (q.status = PositionStatus.OPEN →
      (p.add_position q).available_capital = p.available_capital - q.capital_allocated) ∧
    (p.update_position_prices prices today).current_capital = p.current_capital ∧
    (p.update_daily_pnl today).current_capital = p.current_capital ∧
    ((closeFirstOpen p.positions pid price).2 = none →
      p.close_position pid price today = (p, none)) ∧
    (∀ l qq, closeFirstOpen p.positions pid price = (l, some qq) →
      (p.close_position pid price today).1.current_capital
        = p.current_capital + qq.capital_allocated + (price - qq.entry_price) * qq.shares) := by
  refine ⟨rfl, ?_, rfl, rfl, ?_, ?_⟩
  · intro hq
    unfold Ledger.available_capital Ledger.total_allocated Ledger.open_positions
      Ledger.add_position
    rw [List.filter_append]
    simp [hq]
    ring
  · intro hnone
    rcases hE : closeFirstOpen p.positions pid price with ⟨l, o⟩
    cases o with
    | none =>
        unfold Ledger.close_position
        rw [hE]
    | some qq =>
        rw [hE] at hnone
        simp at hnone
  · intro l qq hE
    unfold Ledger.close_position
    rw [hE]
    rfl

/-- Witness for C9: both close branches and the add frame on a concrete
one-position ledger. -/
theorem claim9_witness :
    closeFirstOpen ledOne.positions pid1 (5/10 : ℚ)
      = ([posOpen1.close (5/10 : ℚ)], some posOpen1) ∧
    (ledOne.close_position pid1 (5/10 : ℚ) day0).1.current_capital
      = ledOne.current_capital + posOpen1.capital_allocated
        + ((5/10 : ℚ) - posOpen1.entry_price) * posOpen1.shares ∧
    (closeFirstOpen ledOne.positions pid2 (5/10 : ℚ)).2 = none ∧
    ledOne.close_position pid2 (5/10 : ℚ) day0 = (ledOne, none) ∧
    (ledOne.add_position posOpen1).current_capital = ledOne.current_capital ∧
    (ledOne.add_position posOpen1).available_capital
      = ledOne.available_capital - posOpen1.capital_allocated :=
  ⟨by with_unfolding_all decide,
   (claim9_capital_frame ledOne posOpen1 [] day0 pid1 (5/10)).2.2.2.2.2
     [posOpen1.close (5/10)] posOpen1 (by with_unfolding_all decide),
   by with_unfolding_all decide,
   (claim9_capital_frame ledOne posOpen1 [] day0 pid2 (5/10)).2.2.2.2.1
     (by with_unfolding_all decide),
   (claim9_capital_frame ledOne posOpen1 [] day0 pid1 (5/10)).1,
   (claim9_capital_frame ledOne posOpen1 [] day0 pid1 (5/10)).2.1
     (by with_unfolding_all decide)⟩

/-- closeFirstOpen finds nothing and leaves the list intact when no element
matches the id with status OPEN. -/
lemma closeFirstOpen_of_no_match (l : List Position) (pid : String) (price : ℚ)
    (h : ∀ r ∈ l, ¬ (r.id = pid ∧ r.status = PositionStatus.OPEN)) :
    closeFirstOpen l pid price = (l, none) := by
  induction l with
  | nil => rfl
  | cons a rest ih =>
      have ha := h a (List.mem_cons_self a rest)
      have ht := ih (fun r hr => h r (List.mem_cons_of_mem a hr))
      simp only [closeFirstOpen]
      rw [if_neg ha, ht]

/-- A successful closeFirstOpen splits the list at the first matching open
position: everything before it fails the match, the match itself is replaced
by its closed form, and the tail is untouched. -/
lemma closeFirstOpen_decomp (l : List Position) (pid : String) (price : ℚ)
    (l2 : List Position) (q : Position)
    (h : closeFirstOpen l pid price = (l2, some q)) :
    q.id = pid ∧ q.status = PositionStatus.OPEN ∧
    ∃ pre post, l = pre ++ q :: post ∧ l2 = pre ++ q.close price :: post ∧
      ∀ r ∈ pre, ¬ (r.id = pid ∧ r.status = PositionStatus.OPEN) := by
  induction l generalizing l2 with
  | nil => simp [closeFirstOpen] at h
  | cons a rest ih =>
      by_cases ha : a.id = pid ∧ a.status = PositionStatus.OPEN
      · simp only [closeFirstOpen] at h
        rw [if_pos ha] at h
        simp only [Prod.mk.injEq, Option.some.injEq] at h
        obtain ⟨hl, hq⟩ := h
        subst hq
        refine ⟨ha.1, ha.2, [], rest, rfl, hl.symm, ?_⟩
        intro r hr
        simp at hr
      · simp only [closeFirstOpen] at h
        rw [if_neg ha] at h
        rcases hE2 : closeFirstOpen rest pid price with ⟨l3, o⟩
        rw [hE2] at h
        cases o with
        | none => simp at h
        | some q2 =>
            simp only [Prod.mk.injEq, Option.some.injEq] at h
            obtain ⟨hl, hq⟩ := h
            subst hq
            obtain ⟨hq1, hq2, pre, post, hsp1, hsp2, hpre⟩ := ih l3 hE2
            refine ⟨hq1, hq2, a :: pre, post, ?_, ?_, ?_⟩
            · simp [hsp1]
            · rw [← hl, hsp2]
              rfl
            · intro r hr
              rcases List.mem_cons.mp hr with h2 | h2
              · subst h2
                exact ha
              · exact hpre r h2

/-- Claim C1: close_position on a matching open position returns the
realized P&L (exit minus entry, times shares), credits current_capital by
exactly capital_allocated plus that P&L, and (when the open position with
that id is unique) removes the id from the open positions; with no matching
open position it returns none and leaves the ledger unchanged. -/
theorem claim1_close_position (p : Ledger) (pid : String) (price : ℚ) (today : String) :
    (∀ l q, closeFirstOpen p.positions pid price = (l, some q) →
       (p.close_position pid price today).2 = some ((price - q.entry_price) * q.shares) ∧
       (p.close_position pid price today).1.current_capital
         = p.current_capital + q.capital_allocated + (price - q.entry_price) * q.shares ∧
       q.id = pid ∧ q.status = PositionStatus.OPEN ∧
       (p.positions.countP (fun r => decide (r.id = pid ∧ r.status = PositionStatus.OPEN)) = 1 →
         ∀ r ∈ (p.close_position pid price today).1.open_positions, ¬ r.id = pid)) ∧
    ((∀ r ∈ p.positions, ¬ (r.id = pid ∧ r.status = PositionStatus.OPEN)) →
       p.close_position pid price today = (p, none)) := by
  constructor
  · intro l q hE
    obtain ⟨hq1, hq2, pre, post, hsp1, hsp2, hpre⟩ :=
      closeFirstOpen_decomp p.positions pid price l q hE
    have hres : p.close_position pid price today
        = (Ledger.update_daily_pnl
            { p with
                positions := l
                current_capital :=
                  p.current_capital + q.capital_allocated + (price - q.entry_price) * q.shares }
            today,
           some ((price - q.entry_price) * q.shares)) := by
      unfold Ledger.close_position
      rw [hE]
    refine ⟨by rw [hres], by rw [hres]; rfl, hq1, hq2, ?_⟩
    intro hcount r hr
    have hpos : (p.close_position pid price today).1.positions = l := by
      rw [hres]
      rfl
    have hr2 : r ∈ l.filter (fun s => decide (s.status = PositionStatus.OPEN)) := by
      unfold Ledger.open_positions at hr
      rwa [hpos] at hr
    have hrl := (List.mem_filter.mp hr2).1
    have hropen : r.status = PositionStatus.OPEN := by
      have := (List.mem_filter.mp hr2).2
      simpa using this
    intro hrid
    have hpre0 : pre.countP (fun s => decide (s.id = pid ∧ s.status = PositionStatus.OPEN)) = 0 :=
      List.countP_eq_zero.mpr (fun a ha => by simpa using hpre a ha)
    rw [hsp1, List.countP_append, List.countP_cons, hpre0] at hcount
    simp [hq1, hq2] at hcount
    rw [hsp2] at hrl
    rcases List.mem_append.mp hrl with hA | hB
    · exact hpre r hA ⟨hrid, hropen⟩
    · rcases List.mem_cons.mp hB with hC | hD
      · rw [hC] at hropen
        simp [Position.close] at hropen
      · exact hcount r hD hrid hropen
  · intro hnone
    unfold Ledger.close_position
    rw [closeFirstOpen_of_no_match p.positions pid price hnone]

/-- Witness for C1: closing the unique open position of a one-position
ledger, and a close for an unknown id. -/
theorem claim1_witness :
    closeFirstOpen ledOne.positions pid1 (5/10 : ℚ)
      = ([posOpen1.close (5/10 : ℚ)], some posOpen1) ∧
    ledOne.positions.countP
      (fun r => decide (r.id = pid1 ∧ r.status = PositionStatus.OPEN)) = 1 ∧
    (ledOne.close_position pid1 (5/10 : ℚ) day0).2
      = some (((5/10 : ℚ) - posOpen1.entry_price) * posOpen1.shares) ∧
    posOpen1 ∉ (ledOne.close_position pid1 (5/10 : ℚ) day0).1.open_positions ∧
    ledOne.close_position pid2 (5/10 : ℚ) day0 = (ledOne, none) := by
  refine ⟨by with_unfolding_all decide, by with_unfolding_all decide, ?_, ?_, ?_⟩
  · exact ((claim1_close_position ledOne pid1 (5/10) day0).1
      [posOpen1.close (5/10)] posOpen1 (by with_unfolding_all decide)).1
  · intro hmem
    exact ((claim1_close_position ledOne pid1 (5/10) day0).1
      [posOpen1.close (5/10)] posOpen1 (by with_unfolding_all decide)).2.2.2.2
      (by with_unfolding_all decide) posOpen1 hmem rfl
  · exact (claim1_close_position ledOne pid2 (5/10) day0).2 (by with_unfolding_all decide)

/-- A binary market whose yes outcome is priced exactly 0: the Python idiom
(yes_price or 0.5) treats the 0.0 price as missing and checks 0.5 instead. -/
def mZero : Market :=
  { id := mid1
    question := qStr
    outcomes := [⟨oid1, sYes, 0⟩, ⟨oid2, sNo, 1⟩]
    volume := 20000
    liquidity := 6000 }

/-- A market failing only the volume filter. -/
def mLowVol : Market :=
  { id := mid1
    question := qStr
    outcomes := [⟨oid1, sYes, (5/10 : ℚ)⟩, ⟨oid2, sNo, (5/10 : ℚ)⟩]
    volume := 500
    liquidity := 6000 }

/-- A passing check_market yields all four threshold bounds, on the
effective price (yes_price or 0.5). -/
lemma check_market_pass (f : MarketFilter) (m : Market)
    (h : (f.check_market m).1 = true) :
    f.min_liquidity ≤ m.liquidity ∧ f.min_volume ≤ m.volume ∧
    f.min_price ≤ orHalf m.yes_price ∧ orHalf m.yes_price ≤ f.max_price := by
  unfold MarketFilter.check_market at h
  split_ifs at h with h1 h2
  have hp : (f.price_check m).1 = true := by
    rcases hD : m.daysToEnd with _ | d
    · rw [hD] at h
      exact h
    · rw [hD] at h
      dsimp only at h
      by_cases h3 : d < f.min_days_to_close
      · rw [if_pos h3] at h
        simp at h
      · rw [if_neg h3] at h
        exact h
  unfold MarketFilter.price_check at hp
  split_ifs at hp with h4
  push_neg at h4
  exact ⟨not_lt.mp h1, not_lt.mp h2, h4.2, h4.1⟩

/-- Counterexample to claim C5 as stated: the filter output can contain a
market whose yes_price (0) lies strictly below min_price, because the
source substitutes 0.5 for a zero price before the extremity check. -/
theorem claim5_counterexample :
    researchFilter.filter_markets [mZero] = [mZero] ∧
    mZero.yes_price = some 0 ∧
    (0 : ℚ) < researchFilter.min_price := by
  refine ⟨?_, by with_unfolding_all decide, by with_unfolding_all decide⟩
  have hc : (researchFilter.check_market mZero).1 = true := by with_unfolding_all decide
  unfold MarketFilter.filter_markets
  rw [List.filter_cons, if_pos hc]
  rfl

/-- Claim C5 (amended): the filter output is an order-preserving sublist; no
output market has liquidity below min_liquidity, volume below min_volume, or
effective yes price (yes_price, with a missing or zero price read as 0.5)
outside [min_price, max_price]; and rejection reasons follow the priority
order liquidity, volume, time-to-close, price-extremity, first failing
reason wins. -/
theorem claim5_amended (f : MarketFilter) (ms : List Market) :
    (f.filter_markets ms).Sublist ms ∧
    (∀ m ∈ f.filter_markets ms,
        f.min_liquidity ≤ m.liquidity ∧ f.min_volume ≤ m.volume ∧
        f.min_price ≤ orHalf m.yes_price ∧ orHalf m.yes_price ≤ f.max_price) ∧
    (∀ m : Market,
        (m.liquidity < f.min_liquidity → f.check_market m = (false, RejectReason.liquidity)) ∧
        (f.min_liquidity ≤ m.liquidity → m.volume < f.min_volume →
            f.check_market m = (false, RejectReason.volume)) ∧
        (f.min_liquidity ≤ m.liquidity → f.min_volume ≤ m.volume →
            ∀ d, m.daysToEnd = some d → d < f.min_days_to_close →
              f.check_market m = (false, RejectReason.time)) ∧
        (f.min_liquidity ≤ m.liquidity → f.min_volume ≤ m.volume →
            (∀ d, m.daysToEnd = some d → f.min_days_to_close ≤ d) →
            (f.max_price < orHalf m.yes_price ∨ orHalf m.yes_price < f.min_price) →
              f.check_market m = (false, RejectReason.price_extreme))) := by
  refine ⟨List.filter_sublist ms, ?_, ?_⟩
  · intro m hm
    have hm2 : m ∈ ms.filter (fun m => (f.check_market m).1) := hm
    exact check_market_pass f m (List.mem_filter.mp hm2).2
  · intro m
    refine ⟨?_, ?_, ?_, ?_⟩
    · intro h1
      unfold MarketFilter.check_market
      rw [if_pos h1]
    · intro h1 h2
      unfold MarketFilter.check_market
      rw [if_neg (not_lt.mpr h1), if_pos h2]
    · intro h1 h2 d hD h3
      unfold MarketFilter.check_market
      rw [if_neg (not_lt.mpr h1), if_neg (not_lt.mpr h2), hD]
      dsimp only
      rw [if_pos h3]
    · intro h1 h2 h3 h4
      unfold MarketFilter.check_market MarketFilter.price_check
      rw [if_neg (not_lt.mpr h1), if_neg (not_lt.mpr h2)]
      rcases hD : m.daysToEnd with _ | d
      · dsimp only
        rw [if_pos h4]
      · dsimp only
        rw [if_neg (not_lt.mpr (h3 d hD)), if_pos h4]

/-- Witness for C5: the amended theorem applied to concrete markets (a
passing one and a volume reject). -/
theorem claim5_witness :
    (researchFilter.filter_markets [mZero]).Sublist [mZero] ∧
    researchFilter.min_liquidity ≤ mZero.liquidity ∧
    researchFilter.check_market mLowVol = (false, RejectReason.volume) := by
  have hmem : mZero ∈ researchFilter.filter_markets [mZero] := by
    have hc : (researchFilter.check_market mZero).1 = true := by with_unfolding_all decide
    unfold MarketFilter.filter_markets
    rw [List.filter_cons, if_pos hc]
    exact List.mem_cons_self _ _
  exact ⟨(claim5_amended researchFilter [mZero]).1,
    ((claim5_amended researchFilter [mZero]).2.1 mZero hmem).1,
    ((claim5_amended researchFilter [mZero]).2.2 mLowVol).2.1
      (by with_unfolding_all decide) (by with_unfolding_all decide)⟩

/-- The mispricing score under the built context is 0 or 30. -/
lemma mispricingScore_bounds (m : Market) (ctx : Context) :
    0 ≤ mispricingScore m ctx ∧ mispricingScore m ctx ≤ 30 := by
  unfold mispricingScore
  split_ifs <;> norm_num

/-- The reversal score under the built context is at most 45. -/
lemma reversalScore_bounds (m : Market) (ctx : Context) :
    0 ≤ reversalScore m ctx ∧ reversalScore m ctx ≤ 45 := by
  unfold reversalScore
  split_ifs <;> norm_num

/-- The event-driven score under the built context is at most 70. -/
lemma eventDrivenScore_bounds (m : Market) (ctx : Context) :
    0 ≤ eventDrivenScore m ctx ∧ eventDrivenScore m ctx ≤ 70 := by
  unfold eventDrivenScore
  rcases hm : m.hoursToEnd with _ | h <;> dsimp only <;>
    split_ifs <;> norm_num

/-- Weighted combination bound: under the built context the combined score
lies in [0, 23.25], in particular below the 40 boost threshold. -/
lemma combine_signals_bounds (m : Market) (ctx : Context) :
    0 ≤ combine_signals m ctx ∧ combine_signals m ctx ≤ (93/4 : ℚ) := by
  obtain ⟨hm0, hm1⟩ := mispricingScore_bounds m ctx
  obtain ⟨hr0, hr1⟩ := reversalScore_bounds m ctx
  obtain ⟨he0, he1⟩ := eventDrivenScore_bounds m ctx
  have harb : clampScore (arbitrageScore ctx) = 0 := min_eq_left (by norm_num [arbitrageScore])
  have hmom : clampScore (momentumScore ctx) = 0 := min_eq_left (by norm_num [momentumScore])
  have hcm0 : 0 ≤ clampScore (mispricingScore m ctx) := le_min hm0 (by norm_num)
  have hcm1 : clampScore (mispricingScore m ctx) ≤ 30 := le_trans (min_le_left _ _) hm1
  have hcr0 : 0 ≤ clampScore (reversalScore m ctx) := le_min hr0 (by norm_num)
  have hcr1 : clampScore (reversalScore m ctx) ≤ 45 := le_trans (min_le_left _ _) hr1
  have hce0 : 0 ≤ clampScore (eventDrivenScore m ctx) := le_min he0 (by norm_num)
  have hce1 : clampScore (eventDrivenScore m ctx) ≤ 70 := le_trans (min_le_left _ _) he1
  unfold combine_signals
  rw [harb, hmom]
  constructor
  · linarith
  · linarith

/-- The blended probability is always inside the clamp range. -/
lemma pattern_probability_bounds (top : Pattern) (mp : ℚ) (llm : Option ℚ) :
    (5/100 : ℚ) ≤ pattern_score_to_probability top mp llm ∧
    pattern_score_to_probability top mp llm ≤ (95/100 : ℚ) := by
  unfold pattern_score_to_probability
  exact ⟨le_max_left _ _, max_le (by norm_num) (min_le_left _ _)⟩

/-- Below the 40 threshold no boost applies. -/
lemma boosted_eq (m : Market) (news : Bool) (g : GeminiConfirms)
    (h : ¬ (40 < combine_signals m (buildContext m news))) :
    boosted_score m news g = combine_signals m (buildContext m news) := by
  unfold boosted_score
  rw [if_neg h]

/-- Claim C8 (amended): for every market analysis (on a market whose yes
price is present, so the Python evaluation is total), the confidence equals
combined_score / 100 and lies in [0, 1], the probability is clamped to
[0.05, 0.95], and the edge equals |probability minus the effective market
price (yes_price, with a missing or zero price read as 0.5)|. -/
theorem claim8_analysis (m : Market) (v : ℚ) (news : Bool) (g : GeminiConfirms)
    (_hyp : m.yes_price = some v) :
    0 ≤ (analyze_market m news g).confidence ∧
    (analyze_market m news g).confidence ≤ 1 ∧
    (analyze_market m news g).confidence = (analyze_market m news g).combined_score / 100 ∧
    (5/100 : ℚ) ≤ (analyze_market m news g).probability ∧
    (analyze_market m news g).probability ≤ (95/100 : ℚ) ∧
    (analyze_market m news g).edge
      = |(analyze_market m news g).probability - orHalf m.yes_price| := by
  obtain ⟨hb0, hb1⟩ := combine_signals_bounds m (buildContext m news)
  have hlt : ¬ (40 < combine_signals m (buildContext m news)) := by
    intro hcon
    linarith
  have hconf : (analyze_market m news g).confidence
      = combine_signals m (buildContext m news) / 100 := by
    show boosted_score m news g / 100 = _
    rw [boosted_eq m news g hlt]
  have hprob : (analyze_market m news g).probability
      = pattern_score_to_probability (top_pattern m (buildContext m news))
          (orHalf m.yes_price) (llm_used m news g) := rfl
  refine ⟨?_, ?_, rfl, ?_, ?_, rfl⟩
  · rw [hconf]
    linarith
  · rw [hconf]
    linarith
  · rw [hprob]
    exact (pattern_probability_bounds _ _ _).1
  · rw [hprob]
    exact (pattern_probability_bounds _ _ _).2

/-- A concrete LLM confirmation record. -/
def g0 : GeminiConfirms := { sentiment_positive := false, llm_probability := (5/10 : ℚ) }

/-- Counterexample to claim C8 as stated: on a market with yes_price 0 the
analysis substitutes 0.5 as the market price, so the reported edge (0) is
not |probability - yes_price| (which would be 0.5). -/
theorem claim8_counterexample :
    mZero.yes_price = some 0 ∧
    (analyze_market mZero false g0).probability = (5/10 : ℚ) ∧
    (analyze_market mZero false g0).edge = 0 ∧
    ¬ ((analyze_market mZero false g0).edge
        = |(analyze_market mZero false g0).probability - 0|) := by
  with_unfolding_all decide

/-- Witness for C8 on a concrete analyzable market. -/
theorem claim8_witness :
    mLowVol.yes_price = some (5/10 : ℚ) ∧
    (0 ≤ (analyze_market mLowVol false g0).confidence ∧
     (analyze_market mLowVol false g0).confidence ≤ 1 ∧
     (analyze_market mLowVol false g0).confidence
       = (analyze_market mLowVol false g0).combined_score / 100 ∧
     (5/100 : ℚ) ≤ (analyze_market mLowVol false g0).probability ∧
     (analyze_market mLowVol false g0).probability ≤ (95/100 : ℚ) ∧
     (analyze_market mLowVol false g0).edge
       = |(analyze_market mLowVol false g0).probability - orHalf mLowVol.yes_price|) :=
  ⟨by with_unfolding_all decide,
   claim8_analysis mLowVol (5/10) false g0 (by with_unfolding_all decide)⟩
